import Mathlib

/-!
Verification of the physical-memory and page-table manager (pmap.c).

The C sources are shallowly embedded: the global state (the `pages` refcount
array, the `page_free_list`, physical memory holding the page tables, and the
TLB-invalidation trace) is made an explicit `KState` record that every
operation threads through.  Page frames are identified by their physical page
number (`ppn`); a C pointer to a page-table entry is modelled as the pair
(frame holding the entry, word index inside that frame).  Machine integers
are `Nat` with explicit wrap-around (`% 2^16` for the 16-bit `pp_ref` field);
`panic` is `Except.error`; fallible operations return their C `int` result.
-/

/-- Architecture page size (bytes), from the x86 MMU layout the code targets. -/
def PGSIZE : Nat := 4096

/-- Jumbo (4MB PSE) page size in bytes. -/
def JPGSIZE : Nat := 4194304

/-- Page-table-entry Present flag (bit 0). -/
def PTE_P : Nat := 0x001

/-- Page-table-entry Writable flag (bit 1). -/
def PTE_W : Nat := 0x002

/-- Page-table-entry User flag (bit 2). -/
def PTE_U : Nat := 0x004

/-- Page-table-entry Page-Size (jumbo) flag (bit 7). -/
def PTE_PS : Nat := 0x080

/-- Page-directory index of a linear address: top 10 bits. -/
def PDX (la : Nat) : Nat := (la >>> 22) &&& 0x3FF

/-- Page-table index of a linear address: middle 10 bits. -/
def PTX (la : Nat) : Nat := (la >>> 12) &&& 0x3FF

/-- Offset of a linear address inside a 4KB page: low 12 bits. -/
def PGOFF (la : Nat) : Nat := la &&& 0xFFF

/-- Offset of a linear address inside a 4MB jumbo page: low 22 bits. -/
def JPGOFF (la : Nat) : Nat := la &&& 0x3FFFFF

/-- Physical page number of a physical address (the `PPN` macro). -/
def PPN (pa : Nat) : Nat := pa >>> 12

/-- Address field of a page-table entry: entry with the low 12 flag bits masked off. -/
def PTE_ADDR (e : Nat) : Nat := e &&& 0xFFFFF000

/-- Base of the legacy IO hole, from the standard PC memory layout header. -/
def IOPHYSMEM : Nat := 0xA0000

/-- End of the legacy IO hole / start of extended memory. -/
def EXTPHYSMEM : Nat := 0x100000

/-- Error code `E_NO_MEM` from the error header (the code returns its negation);
only its nonzero-ness matters to the claims. -/
def E_NO_MEM : Int := 4

/-- The `pp_ref` field of `struct Page` is a 16-bit unsigned integer; its
arithmetic wraps modulo `2^16`. -/
def PP_REF_MOD : Nat := 65536

/-- `page2pa`: physical address of the frame with the given physical page number. -/
def page2pa (pp : Nat) : Nat := pp * PGSIZE

/-- `pa2page`: physical page number of the frame containing a physical address
(the C macro yields `&pages[PPN(pa)]`; frames are modelled by their ppn). -/
def pa2page (pa : Nat) : Nat := PPN pa

/-- The explicit global state of pmap.c: per-frame reference counts (`pages[i].pp_ref`),
the free list (head = `LIST_FIRST`, modelled as the list of free ppns in list order),
physical memory holding page tables (`mem f i` = i-th 32-bit word of frame `f`),
and the trace of addresses passed to `invlpg` (most recent first). -/
structure KState where
  refs : Nat → Nat
  freeList : List Nat
  mem : Nat → Nat → Nat
  tlbInvals : List Nat

/-- Store value `v` into word `i` of frame `f`. -/
def writeMem (s : KState) (f i v : Nat) : KState :=
  { s with mem := fun p j => if p = f ∧ j = i then v else s.mem p j }

/-- Store `v` into `pages[pp].pp_ref`. -/
def writeRef (s : KState) (pp v : Nat) : KState :=
  { s with refs := Function.update s.refs pp v }

/-- Insert frames `lo, lo+1, ..., lo+n-1`, in that order, each at the head of
the free list: the loop body `LIST_INSERT_HEAD(&page_free_list, &pages[i], pp_link)`. -/
def insertRange (lo : Nat) : Nat → List Nat → List Nat
  | 0, l => l
  | n + 1, l => (lo + n) :: insertRange lo n l

/-- `page_init`: partition the `npage` physical frames.  Frame 0 and the frames of
the IO hole `[IOPHYSMEM, EXTPHYSMEM)` and of the kernel image/boot allocations
`[EXTPHYSMEM, kernEnd)` get refcount 1 and stay off the free list; the rest get
refcount 0 and are pushed onto the free list head-first (`kernEnd` stands for
`PPN(physaddr_after_kernel)`).  The refcount function reflects the sequential
writes of the four loops: a later loop's write overrides an earlier one's. -/
def page_init (npage kernEnd : Nat) : KState :=
  { refs := fun i =>
      if kernEnd ≤ i ∧ i < npage then 0
      else if PPN EXTPHYSMEM ≤ i ∧ i < kernEnd then 1
      else if PPN IOPHYSMEM ≤ i ∧ i < PPN EXTPHYSMEM then 1
      else if 1 ≤ i ∧ i < PPN IOPHYSMEM then 0
      else if i = 0 then 1
      else 0,
    freeList := insertRange kernEnd (npage - kernEnd)
                  (insertRange 1 (PPN IOPHYSMEM - 1) []),
    mem := fun _ _ => 0,
    tlbInvals := [] }

/-- `page_alloc`: pop the free-list head if non-empty and reset its metadata
(`page_initpp` zeroes the struct, so refcount 0 and no links), returning 0 and
the frame; else return `-E_NO_MEM` and mutate nothing. -/
def page_alloc (s : KState) : Int × Option Nat × KState :=
  match s.freeList with
  | [] => (-E_NO_MEM, none, s)
  | pp :: rest => (0, some pp, { s with refs := Function.update s.refs pp 0,
                                        freeList := rest })

/-- `page_free`: panic if the refcount is nonzero, else push the frame onto the
free-list head. -/
def page_free (s : KState) (pp : Nat) : Except String KState :=
  if s.refs pp ≠ 0 then
    .error ("panic: Attempting to free page with non-zero reference count!")
  else
    .ok { s with freeList := pp :: s.freeList }

/-- `page_decref`: decrement the 16-bit refcount (with unsigned wrap-around);
if the decremented value is 0, `page_free` the frame. -/
def page_decref (s : KState) (pp : Nat) : Except String KState :=
  let r := (s.refs pp + (PP_REF_MOD - 1)) % PP_REF_MOD
  let s1 := writeRef s pp r
  if r = 0 then page_free s1 pp else .ok s1

/-- `pgdir_walk`: find (or, per `create`, build) the PTE slot for `va` in the
directory held in frame `pd`.  Returns a pointer (frame, index) to the entry,
`none` for absent/unallocatable, or panics (jumbo request at unaligned `va`).
A present jumbo directory entry is itself returned as the PTE; a missing child
table is materialized via `page_alloc` (refcount 1, zero-filled), and `none`
is returned without side effects if that allocation fails. -/
def pgdir_walk (s : KState) (pd va create : Nat) :
    Except String (Option (Nat × Nat) × KState) :=
  let the_pde := s.mem pd (PDX va)
  if the_pde &&& PTE_P ≠ 0 then
    if the_pde &&& PTE_PS ≠ 0 then
      .ok (some (pd, PDX va), s)
    else
      .ok (some (PPN (PTE_ADDR the_pde), PTX va), s)
  else if create = 0 then
    .ok (none, s)
  else if create = 2 then
    if JPGOFF va ≠ 0 then
      .error ("panic: Attempting to find a Jumbo PTE at an unaligned VA!")
    else
      .ok (some (pd, PDX va), writeMem s pd (PDX va) (PTE_PS ||| PTE_P))
  else
    match page_alloc s with
    | (_, none, s1) => .ok (none, s1)
    | (_, some pt, s1) =>
      let s2 := writeRef s1 pt 1
      let s3 := { s2 with mem := fun p i => if p = pt then 0 else s2.mem p i }
      let npde := page2pa pt ||| PTE_P ||| PTE_W ||| PTE_U
      let s4 := writeMem s3 pd (PDX va) npde
      .ok (some (PPN (PTE_ADDR npde), PTX va), s4)

/-- `tlb_invalidate`/`invlpg`: record the invalidated address (single address
space, so the entry is always flushed). -/
def tlb_invalidate (s : KState) (va : Nat) : KState :=
  { s with tlbInvals := va :: s.tlbInvals }

/-- `page_lookup`: walk without creating; if the entry is present, return the
mapped frame together with the PTE pointer (the `pte_store` out-parameter is
modelled as part of the return value).  For jumbos this yields the first
4KB frame of the 4MB region. -/
def page_lookup (s : KState) (pd va : Nat) : Option (Nat × (Nat × Nat)) :=
  match pgdir_walk s pd va 0 with
  | .ok (some pte, _) =>
    let e := s.mem pte.1 pte.2
    if e &&& PTE_P ≠ 0 then some (pa2page (PTE_ADDR e), pte) else none
  | _ => none

/-- `page_remove`: no-op if nothing is mapped at `va`; otherwise clear the PTE,
invalidate the TLB entry for `va`, and decref the mapped frame. -/
def page_remove (s : KState) (pd va : Nat) : Except String KState :=
  match page_lookup s pd va with
  | none => .ok s
  | some (page, pte) =>
    let s1 := writeMem s pte.1 pte.2 0
    let s2 := tlb_invalidate s1 va
    page_decref s2 page

/-- `page_insert`: walk with create; on walk failure return `-E_NO_MEM`.
Otherwise increment the frame's refcount first, then `page_remove` any
preexisting mapping at `va`, then install `page2pa pp | PTE_P | perm`. -/
def page_insert (s : KState) (pd pp va perm : Nat) :
    Except String (Int × KState) :=
  match pgdir_walk s pd va 1 with
  | .error msg => .error msg
  | .ok (none, s1) => .ok (-E_NO_MEM, s1)
  | .ok (some pte, s1) =>
    let s2 := writeRef s1 pp ((s1.refs pp + 1) % PP_REF_MOD)
    if s2.mem pte.1 pte.2 &&& PTE_P ≠ 0 then
      match page_remove s2 pd va with
      | .error msg => .error msg
      | .ok s3 => .ok (0, writeMem s3 pte.1 pte.2 (page2pa pp ||| PTE_P ||| perm))
    else
      .ok (0, writeMem s2 pte.1 pte.2 (page2pa pp ||| PTE_P ||| perm))

/-- `user_mem_check`: the access-validator as it stands in the source — an
unimplemented stub that ignores all of its arguments and reports success.
`env` is the owning environment (opaque to this core). -/
def user_mem_check (env : Nat) (va len perm : Nat) : Int := 0

/-- One step of the frame database: a `page_alloc`, a non-panicking `page_free`,
or a `page_decref` respecting its implicit precondition that the refcount is
nonzero. -/
inductive DbStep : KState → KState → Prop where
  | alloc (s : KState) : DbStep s (page_alloc s).2.2
  | free (s : KState) (pp : Nat) (s' : KState)
      (h : page_free s pp = .ok s') : DbStep s s'
  | decref (s : KState) (pp : Nat) (s' : KState)
      (hr : s.refs pp ≠ 0) (h : page_decref s pp = .ok s') : DbStep s s'

/-- The free-list invariant: every frame on the free list has refcount 0. -/
def FreeInv (s : KState) : Prop := ∀ pp ∈ s.freeList, s.refs pp = 0

/-! ## Sample states used by the witnesses -/

/-- A state with nothing mapped and an empty free list. -/
def emptySt : KState :=
  { refs := fun _ => 0, freeList := [], mem := fun _ _ => 0, tlbInvals := [] }

/-- A state whose directory (frame 0) maps `va = 0` through child table
frame 2 (pde `0x2007`) to frame 5 (pte `0x5003`); frames 2 and 5 have
refcount 1 and frame 7 is free. -/
def mapSt : KState :=
  { refs := fun i => if i = 2 then 1 else if i = 5 then 1 else 0,
    freeList := [7],
    mem := fun p i => if p = 0 ∧ i = 0 then 0x2007
                      else if p = 2 ∧ i = 0 then 0x5003 else 0,
    tlbInvals := [] }

/-- A state whose directory (frame 0) holds, at slot 0, a present non-jumbo
entry `0x2003` pointing at child table frame 2; free list empty. -/
def tblSt : KState :=
  { refs := fun _ => 0, freeList := [],
    mem := fun p i => if p = 0 ∧ i = 0 then 0x2003 else 0,
    tlbInvals := [] }

/-- A state whose directory (frame 0) holds, at slot 0, the jumbo entry
`0x400083` (`PTE_PS | PTE_W | PTE_P`, physical base `0x400000`), and the
first frame (ppn 1024) of that 4MB region has refcount 1. -/
def jumboSt : KState :=
  { refs := fun i => if i = 1024 then 1 else 0, freeList := [],
    mem := fun p i => if p = 0 ∧ i = 0 then 0x400083 else 0,
    tlbInvals := [] }

/-! ## C2 -/

/-- C2 (code bug): `user_mem_check` is an unimplemented stub that returns 0
(success) for every environment, address, length and permission set — in
particular for ranges lying entirely at or above the user/kernel split — in
direct contradiction with its own documented contract ("Returns 0 if the user
program can access this range of addresses, and -E_FAULT otherwise"). -/
theorem user_mem_check_stub_always_succeeds (env va len perm : Nat) :
    user_mem_check env va len perm = 0 := rfl

/-! ## C7 -/

/-- C7: with an empty free list, `page_alloc` returns `-E_NO_MEM` and mutates
nothing; with a non-empty free list it pops the head frame, resets its
metadata to refcount 0 with no links, and returns it with status 0.  It never
panics (it is a total function into plain results, not `Except`). -/
theorem page_alloc_empty_and_pop :
    (∀ s : KState, s.freeList = [] → page_alloc s = (-E_NO_MEM, none, s)) ∧
    (∀ (s : KState) (h : Nat) (t : List Nat), s.freeList = h :: t →
      page_alloc s =
        (0, some h, { s with refs := Function.update s.refs h 0, freeList := t })) := by
  constructor
  · intro s hs
    simp [page_alloc, hs]
  · intro s h t hs
    simp [page_alloc, hs]

theorem page_alloc_empty_and_pop_witness :
    (emptySt.freeList = [] ∧ page_alloc emptySt = (-E_NO_MEM, none, emptySt)) ∧
    (mapSt.freeList = [7] ∧
      page_alloc mapSt =
        (0, some 7, { mapSt with refs := Function.update mapSt.refs 7 0, freeList := [] })) :=
  ⟨⟨rfl, page_alloc_empty_and_pop.1 emptySt rfl⟩,
   ⟨rfl, page_alloc_empty_and_pop.2 mapSt 7 [] rfl⟩⟩

/-! ## C9 -/

/-- C9: `page_decref` never panics; it decrements the 16-bit refcount with
unsigned wrap-around and frees the frame (pushing it onto the free list)
exactly when the pre-call refcount is 1.  Called with refcount 0 it does not
trap and does not free: the count wraps to the maximum value `2^16 - 1`. -/
theorem page_decref_wraps_and_frees_iff_one (s : KState) (pp : Nat)
    (hM : s.refs pp < PP_REF_MOD) :
    ∃ s', page_decref s pp = .ok s' ∧
      s'.refs pp = (s.refs pp + (PP_REF_MOD - 1)) % PP_REF_MOD ∧
      s'.freeList = (if s.refs pp = 1 then pp :: s.freeList else s.freeList) ∧
      (s.refs pp = 0 → s'.refs pp = PP_REF_MOD - 1 ∧ s'.freeList = s.freeList) := by
  have hM' : s.refs pp < 65536 := hM
  by_cases h1 : s.refs pp = 1
  · have hv : (s.refs pp + (PP_REF_MOD - 1)) % PP_REF_MOD = 0 := by
      simp only [PP_REF_MOD]; omega
    have hrun : page_decref s pp =
        .ok { s with refs := Function.update s.refs pp 0,
                     freeList := pp :: s.freeList } := by
      simp only [page_decref, writeRef, page_free]
      rw [hv]
      simp
    refine ⟨_, hrun, ?_, ?_, ?_⟩
    · simp [hv]
    · simp [h1]
    · intro h0; omega
  · have hv : (s.refs pp + (PP_REF_MOD - 1)) % PP_REF_MOD ≠ 0 := by
      simp only [PP_REF_MOD]; omega
    have hrun : page_decref s pp =
        .ok (writeRef s pp ((s.refs pp + (PP_REF_MOD - 1)) % PP_REF_MOD)) := by
      simp only [page_decref]
      rw [if_neg hv]
    refine ⟨_, hrun, ?_, ?_, ?_⟩
    · simp [writeRef]
    · simp [writeRef, h1]
    · intro h0
      refine ⟨by simp [writeRef, h0, PP_REF_MOD], by simp [writeRef]⟩

theorem page_decref_wraps_and_frees_iff_one_witness :
    mapSt.refs 5 < PP_REF_MOD ∧
    ∃ s', page_decref mapSt 5 = .ok s' ∧
      s'.refs 5 = (mapSt.refs 5 + (PP_REF_MOD - 1)) % PP_REF_MOD ∧
      s'.freeList = (if mapSt.refs 5 = 1 then 5 :: mapSt.freeList else mapSt.freeList) ∧
      (mapSt.refs 5 = 0 → s'.refs 5 = PP_REF_MOD - 1 ∧ s'.freeList = mapSt.freeList) :=
  ⟨by decide, page_decref_wraps_and_frees_iff_one mapSt 5 (by decide)⟩

/-! ## C1 -/

theorem mem_insertRange {i lo n : Nat} {l : List Nat} :
    i ∈ insertRange lo n l ↔ (lo ≤ i ∧ i < lo + n) ∨ i ∈ l := by
  induction n with
  | zero =>
    simp only [insertRange, Nat.add_zero]
    constructor
    · exact fun h => Or.inr h
    · rintro (⟨h1, h2⟩ | h)
      · omega
      · exact h
  | succ n ih =>
    simp only [insertRange, List.mem_cons, ih]
    constructor
    · rintro (rfl | ⟨h1, h2⟩ | h)
      · exact Or.inl ⟨by omega, by omega⟩
      · exact Or.inl ⟨h1, by omega⟩
      · exact Or.inr h
    · rintro (⟨h1, h2⟩ | h)
      · by_cases hi : i = lo + n
        · exact Or.inl hi
        · exact Or.inr (Or.inl ⟨h1, by omega⟩)
      · exact Or.inr (Or.inr h)

theorem page_init_free_inv (npage kernEnd : Nat) : FreeInv (page_init npage kernEnd) := by
  intro pp hpp
  have h160 : PPN IOPHYSMEM = 160 := rfl
  have h256 : PPN EXTPHYSMEM = 256 := rfl
  simp only [page_init, h160, h256] at hpp ⊢
  rw [mem_insertRange, mem_insertRange] at hpp
  simp only [List.not_mem_nil, or_false] at hpp
  split_ifs <;> omega

theorem db_step_preserves_free_inv (s s' : KState) (h : DbStep s s') (inv : FreeInv s) :
    FreeInv s' := by
  cases h with
  | alloc =>
    cases hfl : s.freeList with
    | nil =>
      simp only [page_alloc, hfl]
      exact inv
    | cons pp rest =>
      simp only [page_alloc, hfl]
      intro q hq
      rcases eq_or_ne q pp with rfl | hne
      · simp
      · simp only [Function.update_noteq hne]
        exact inv q (by rw [hfl]; exact List.mem_cons_of_mem _ hq)
  | free pp a hfree =>
    unfold page_free at hfree
    split at hfree
    · exact absurd hfree (by simp)
    · rename_i hr0
      simp only [ne_eq, not_not] at hr0
      injection hfree with hfree
      subst hfree
      intro q hq
      rcases List.mem_cons.mp hq with rfl | hq'
      · exact hr0
      · exact inv q hq'
  | decref pp a hr hdec =>
    have hqp : pp ∉ s.freeList := fun hmem => hr (inv pp hmem)
    unfold page_decref at hdec
    simp only at hdec
    split at hdec
    · rename_i hv0
      unfold page_free writeRef at hdec
      rw [if_neg (by simpa using hv0)] at hdec
      injection hdec with hdec
      subst hdec
      intro q hq
      simp only [List.mem_cons] at hq
      rcases hq with rfl | hq'
      · simpa using hv0
      · have hne : q ≠ pp := fun hqe => hqp (hqe ▸ hq')
        simpa [Function.update_noteq hne] using inv q hq'
    · injection hdec with hdec
      subst hdec
      intro q hq
      simp only [writeRef] at hq ⊢
      have hne : q ≠ pp := fun hqe => hqp (hqe ▸ hq)
      simpa [Function.update_noteq hne] using inv q hq

/-- C1 (amended): starting from `page_init`, along every sequence of
`page_alloc` steps, non-panicking `page_free` steps, and `page_decref` steps
that respect decref's implicit nonzero-refcount precondition, every frame on
the free list has refcount 0.  (The converse inclusion of the original claim
is refuted separately: a frame just handed out by `page_alloc` has refcount 0
while off the free list, until its caller sets the count.) -/
theorem free_list_frames_have_refcount_zero (npage kernEnd : Nat) (s : KState)
    (h : Relation.ReflTransGen DbStep (page_init npage kernEnd) s) :
    ∀ pp ∈ s.freeList, s.refs pp = 0 := by
  induction h with
  | refl => exact page_init_free_inv npage kernEnd
  | tail _ hstep ih => exact db_step_preserves_free_inv _ _ hstep ih

theorem free_list_frames_have_refcount_zero_witness :
    (1 ∈ (page_init 300 280).freeList) ∧ (page_init 300 280).refs 1 = 0 :=
  ⟨by decide,
   free_list_frames_have_refcount_zero 300 280 _ Relation.ReflTransGen.refl 1 (by decide)⟩

/-- C1 counterexample: the original two-sided invariant fails on the code.
In the concrete database of 300 frames with the kernel ending at frame 280,
the very first `page_alloc` after `page_init` hands out frame 299 with
refcount 0 while removing it from the free list, so a frame with refcount 0
is off the free list. -/
theorem page_alloc_breaks_two_sided_invariant :
    (page_alloc (page_init 300 280)).2.2.refs 299 = 0 ∧
    299 ∉ (page_alloc (page_init 300 280)).2.2.freeList := by
  constructor
  · decide
  · decide

/-! ## Run-equation helpers shared by the mapping claims -/

theorem page_decref_run (s : KState) (pp : Nat) (hM : s.refs pp < PP_REF_MOD) :
    page_decref s pp = .ok
      { s with refs := Function.update s.refs pp
                 ((s.refs pp + (PP_REF_MOD - 1)) % PP_REF_MOD),
               freeList := if s.refs pp = 1 then pp :: s.freeList else s.freeList } := by
  have hM' : s.refs pp < 65536 := hM
  by_cases h1 : s.refs pp = 1
  · have hv : (s.refs pp + (PP_REF_MOD - 1)) % PP_REF_MOD = 0 := by
      simp only [PP_REF_MOD]; omega
    simp only [page_decref, writeRef, page_free]
    rw [hv]
    simp [h1]
  · have hv : (s.refs pp + (PP_REF_MOD - 1)) % PP_REF_MOD ≠ 0 := by
      simp only [PP_REF_MOD]; omega
    simp only [page_decref, writeRef]
    rw [if_neg hv, if_neg h1]

theorem pgdir_walk_present_run (s : KState) (pd va create : Nat)
    (hP : s.mem pd (PDX va) &&& PTE_P ≠ 0)
    (hPS : s.mem pd (PDX va) &&& PTE_PS = 0) :
    pgdir_walk s pd va create =
      .ok (some (PPN (PTE_ADDR (s.mem pd (PDX va))), PTX va), s) := by
  simp only [pgdir_walk]
  rw [if_pos hP, if_neg (by simp [hPS])]

theorem pgdir_walk_jumbo_run (s : KState) (pd va create : Nat)
    (hP : s.mem pd (PDX va) &&& PTE_P ≠ 0)
    (hPS : s.mem pd (PDX va) &&& PTE_PS ≠ 0) :
    pgdir_walk s pd va create = .ok (some (pd, PDX va), s) := by
  simp only [pgdir_walk]
  rw [if_pos hP, if_pos hPS]

theorem page_remove_run (s : KState) (pd va t ix : Nat)
    (hwalk : pgdir_walk s pd va 0 = .ok (some (t, ix), s))
    (heP : s.mem t ix &&& PTE_P ≠ 0)
    (hfM : s.refs (pa2page (PTE_ADDR (s.mem t ix))) < PP_REF_MOD) :
    page_remove s pd va = .ok
      { refs := Function.update s.refs (pa2page (PTE_ADDR (s.mem t ix)))
          ((s.refs (pa2page (PTE_ADDR (s.mem t ix))) + (PP_REF_MOD - 1)) % PP_REF_MOD),
        freeList := if s.refs (pa2page (PTE_ADDR (s.mem t ix))) = 1
                    then pa2page (PTE_ADDR (s.mem t ix)) :: s.freeList
                    else s.freeList,
        mem := fun p j => if p = t ∧ j = ix then 0 else s.mem p j,
        tlbInvals := va :: s.tlbInvals } := by
  have hlook : page_lookup s pd va =
      some (pa2page (PTE_ADDR (s.mem t ix)), (t, ix)) := by
    simp only [page_lookup, hwalk]
    rw [if_pos heP]
  simp only [page_remove, hlook]
  rw [page_decref_run _ _ (by simpa [writeMem, tlb_invalidate] using hfM)]
  rfl

/-! ## C8 -/

/-- C8 counterexample: the claim that a create-mode-2 (jumbo) walk panics
*whenever* `va` is unaligned is false: in `tblSt` the directory already holds
a present non-jumbo entry for `va = 0x1000`, and the walk returns that
table's entry pointer (frame 2, index 1) without panicking and without
installing any jumbo leaf, even though `0x1000` is not 4MB-aligned. -/
theorem pgdir_walk_jumbo_unaligned_no_panic :
    JPGOFF 0x1000 ≠ 0 ∧
    pgdir_walk tblSt 0 0x1000 2 = .ok (some (2, 1), tblSt) := by
  constructor
  · decide
  · rw [pgdir_walk_present_run tblSt 0 0x1000 2 (by decide) (by decide)]
    rfl

/-- C8 (amended): when the directory-level entry for `va` is *not present*,
a walk with create mode 2 panics exactly when `va` is not aligned to the
4MB jumbo-page size, and at an aligned `va` it installs the directory-level
leaf `PTE_PS | PTE_P` and returns a pointer to that directory slot (frame
`pd`, index `PDX va`), not a second-level entry.  (When a directory entry is
already present the walk returns it with no alignment check — see the
counterexample.) -/
theorem pgdir_walk_jumbo_create_spec (s : KState) (pd va : Nat)
    (hP : s.mem pd (PDX va) &&& PTE_P = 0) :
    (JPGOFF va ≠ 0 →
      pgdir_walk s pd va 2 =
        .error ("panic: Attempting to find a Jumbo PTE at an unaligned VA!")) ∧
    (JPGOFF va = 0 →
      pgdir_walk s pd va 2 =
        .ok (some (pd, PDX va), writeMem s pd (PDX va) (PTE_PS ||| PTE_P))) := by
  have hP' : ¬ s.mem pd (PDX va) &&& PTE_P ≠ 0 := by simp [hP]
  constructor
  · intro hoff
    simp only [pgdir_walk]
    rw [if_neg hP', if_neg (by norm_num)]
    simp only [if_true]
    rw [if_pos hoff]
  · intro hoff
    simp only [pgdir_walk]
    rw [if_neg hP', if_neg (by norm_num)]
    simp only [if_true]
    rw [if_neg (by simp [hoff])]

theorem pgdir_walk_jumbo_create_spec_witness :
    (emptySt.mem 0 (PDX 0x400000) &&& PTE_P = 0 ∧ JPGOFF 0x401000 ≠ 0 ∧
      JPGOFF 0x400000 = 0) ∧
    (pgdir_walk emptySt 0 0x401000 2 =
      .error ("panic: Attempting to find a Jumbo PTE at an unaligned VA!")) ∧
    (pgdir_walk emptySt 0 0x400000 2 =
      .ok (some (0, PDX 0x400000),
           writeMem emptySt 0 (PDX 0x400000) (PTE_PS ||| PTE_P))) := by
  refine ⟨⟨by decide, by decide, by decide⟩, ?_, ?_⟩
  · have h := (pgdir_walk_jumbo_create_spec emptySt 0 0x401000 (by decide)).1 (by decide)
    simpa using h
  · exact (pgdir_walk_jumbo_create_spec emptySt 0 0x400000 (by decide)).2 (by decide)

/-! ## C4 -/

/-- C4: `page_remove` is a no-op (identical state: no refcount change, no
table write, no TLB invalidation) when nothing is mapped at `va` — whether
because the directory entry is absent or because the leaf entry is not
present; when a present leaf maps frame `f = pa2page (PTE_ADDR e)`, it zeroes
the leaf entry, records a TLB invalidation of `va`, and decrements `f`'s
refcount, pushing `f` onto the free list exactly when the count reaches 0
(i.e. exactly when the pre-call count was 1). -/
theorem page_remove_noop_or_unmaps :
    (∀ (s : KState) (pd va : Nat),
      (s.mem pd (PDX va) &&& PTE_P = 0 ∨
        (s.mem pd (PDX va) &&& PTE_PS = 0 ∧
         s.mem (PPN (PTE_ADDR (s.mem pd (PDX va)))) (PTX va) &&& PTE_P = 0)) →
      page_remove s pd va = .ok s) ∧
    (∀ (s : KState) (pd va d e : Nat),
      s.mem pd (PDX va) = d → d &&& PTE_P ≠ 0 → d &&& PTE_PS = 0 →
      s.mem (PPN (PTE_ADDR d)) (PTX va) = e → e &&& PTE_P ≠ 0 →
      s.refs (pa2page (PTE_ADDR e)) < PP_REF_MOD →
      ∃ s', page_remove s pd va = .ok s' ∧
        s'.mem (PPN (PTE_ADDR d)) (PTX va) = 0 ∧
        s'.tlbInvals = va :: s.tlbInvals ∧
        s'.refs (pa2page (PTE_ADDR e)) =
          (s.refs (pa2page (PTE_ADDR e)) + (PP_REF_MOD - 1)) % PP_REF_MOD ∧
        s'.freeList = (if s.refs (pa2page (PTE_ADDR e)) = 1
                       then pa2page (PTE_ADDR e) :: s.freeList
                       else s.freeList)) := by
  constructor
  · intro s pd va hno
    rcases hno with hP | ⟨hPS, hleaf⟩
    · have hP' : ¬ s.mem pd (PDX va) &&& PTE_P ≠ 0 := by simp [hP]
      have hwalk : pgdir_walk s pd va 0 = .ok (none, s) := by
        simp only [pgdir_walk]
        rw [if_neg hP']
        simp only [if_true]
      simp only [page_remove, page_lookup, hwalk]
    · by_cases hP : s.mem pd (PDX va) &&& PTE_P ≠ 0
      · have hwalk := pgdir_walk_present_run s pd va 0 hP hPS
        have hleaf' : ¬ s.mem (PPN (PTE_ADDR (s.mem pd (PDX va)))) (PTX va) &&& PTE_P ≠ 0 := by
          simp [hleaf]
        simp only [page_remove, page_lookup, hwalk]
        rw [if_neg hleaf']
      · have hwalk : pgdir_walk s pd va 0 = .ok (none, s) := by
          simp only [pgdir_walk]
          rw [if_neg hP]
          simp only [if_true]
        simp only [page_remove, page_lookup, hwalk]
  · intro s pd va d e hd hdP hdPS he heP hfM
    have hwalk : pgdir_walk s pd va 0 =
        .ok (some (PPN (PTE_ADDR d), PTX va), s) := by
      have h := pgdir_walk_present_run s pd va 0 (by rw [hd]; exact hdP) (by rw [hd]; exact hdPS)
      rw [hd] at h
      exact h
    have hrun := page_remove_run s pd va (PPN (PTE_ADDR d)) (PTX va) hwalk
      (by rw [he]; exact heP) (by rw [he]; exact hfM)
    rw [he] at hrun
    refine ⟨_, hrun, ?_, rfl, ?_, rfl⟩
    · simp
    · simp

theorem page_remove_noop_or_unmaps_witness :
    ((mapSt.mem 0 (PDX 0x400000) &&& PTE_P = 0 ∨
       (mapSt.mem 0 (PDX 0x400000) &&& PTE_PS = 0 ∧
        mapSt.mem (PPN (PTE_ADDR (mapSt.mem 0 (PDX 0x400000)))) (PTX 0x400000) &&& PTE_P = 0)) ∧
      page_remove mapSt 0 0x400000 = .ok mapSt) ∧
    (∃ s', page_remove mapSt 0 0 = .ok s' ∧
      s'.mem (PPN (PTE_ADDR 0x2007)) (PTX 0) = 0 ∧
      s'.tlbInvals = 0 :: mapSt.tlbInvals ∧
      s'.refs (pa2page (PTE_ADDR 0x5003)) =
        (mapSt.refs (pa2page (PTE_ADDR 0x5003)) + (PP_REF_MOD - 1)) % PP_REF_MOD ∧
      s'.freeList = (if mapSt.refs (pa2page (PTE_ADDR 0x5003)) = 1
                     then pa2page (PTE_ADDR 0x5003) :: mapSt.freeList
                     else mapSt.freeList)) :=
  ⟨⟨Or.inl (by decide),
    page_remove_noop_or_unmaps.1 mapSt 0 0x400000 (Or.inl (by decide))⟩,
   page_remove_noop_or_unmaps.2 mapSt 0 0 0x2007 0x5003
     (by decide) (by decide) (by decide) (by decide) (by decide) (by decide)⟩

/-! ## C10 -/

theorem jumbo_base_ppn (jbase : Nat) : pa2page (jbase * JPGSIZE) = jbase * 1024 := by
  simp only [pa2page, PPN, JPGSIZE, Nat.shiftRight_eq_div_pow]
  rw [show (4194304 : Nat) = 1024 * 4096 from rfl, ← Nat.mul_assoc]
  norm_num

/-- C10: for a present jumbo (PTE_PS) directory entry `e` whose address field
is the 4MB-aligned base `jbase * JPGSIZE`, `page_lookup` returns the frame
`jbase * 1024` — the first 4KB frame of the 4MB region — together with a
pointer to the directory slot itself; and `page_remove` clears that single
directory-level entry, invalidates the translation for `va`, and decrements
only that first frame's refcount, exactly once for the whole region (every
other frame's refcount is untouched), freeing it exactly when the count was 1. -/
theorem jumbo_lookup_remove_first_frame (s : KState) (pd va jbase e : Nat)
    (he : s.mem pd (PDX va) = e) (heP : e &&& PTE_P ≠ 0) (hePS : e &&& PTE_PS ≠ 0)
    (hbase : PTE_ADDR e = jbase * JPGSIZE)
    (hfM : s.refs (jbase * 1024) < PP_REF_MOD) :
    page_lookup s pd va = some (jbase * 1024, (pd, PDX va)) ∧
    ∃ s', page_remove s pd va = .ok s' ∧
      s'.mem pd (PDX va) = 0 ∧
      s'.tlbInvals = va :: s.tlbInvals ∧
      s'.refs (jbase * 1024) =
        (s.refs (jbase * 1024) + (PP_REF_MOD - 1)) % PP_REF_MOD ∧
      (∀ g, g ≠ jbase * 1024 → s'.refs g = s.refs g) ∧
      s'.freeList = (if s.refs (jbase * 1024) = 1
                     then jbase * 1024 :: s.freeList else s.freeList) := by
  have hppn : pa2page (PTE_ADDR e) = jbase * 1024 := by
    rw [hbase]; exact jumbo_base_ppn jbase
  have hwalk : pgdir_walk s pd va 0 = .ok (some (pd, PDX va), s) :=
    pgdir_walk_jumbo_run s pd va 0 (by rw [he]; exact heP) (by rw [he]; exact hePS)
  constructor
  · simp only [page_lookup, hwalk, he]
    rw [if_pos heP, hppn]
  · have hrun := page_remove_run s pd va pd (PDX va) hwalk
      (by rw [he]; exact heP) (by rw [he, hppn]; exact hfM)
    rw [he, hppn] at hrun
    refine ⟨_, hrun, by simp, rfl, by simp, ?_, rfl⟩
    intro g hg
    simp [Function.update_noteq hg]

theorem jumbo_lookup_remove_first_frame_witness :
    (jumboSt.mem 0 (PDX 0x12345) = 0x400083 ∧
      (0x400083 : Nat) &&& PTE_P ≠ 0 ∧ (0x400083 : Nat) &&& PTE_PS ≠ 0 ∧
      PTE_ADDR 0x400083 = 1 * JPGSIZE ∧ jumboSt.refs (1 * 1024) < PP_REF_MOD) ∧
    (page_lookup jumboSt 0 0x12345 = some (1 * 1024, (0, PDX 0x12345)) ∧
      ∃ s', page_remove jumboSt 0 0x12345 = .ok s' ∧
        s'.mem 0 (PDX 0x12345) = 0 ∧
        s'.tlbInvals = 0x12345 :: jumboSt.tlbInvals ∧
        s'.refs (1 * 1024) =
          (jumboSt.refs (1 * 1024) + (PP_REF_MOD - 1)) % PP_REF_MOD ∧
        (∀ g, g ≠ 1 * 1024 → s'.refs g = jumboSt.refs g) ∧
        s'.freeList = (if jumboSt.refs (1 * 1024) = 1
                       then 1 * 1024 :: jumboSt.freeList else jumboSt.freeList)) :=
  ⟨⟨by decide, by decide, by decide, by decide, by decide⟩,
   jumbo_lookup_remove_first_frame jumboSt 0 0x12345 1 0x400083
     (by decide) (by decide) (by decide) (by decide) (by decide)⟩

/-- Shared execution lemma: `page_insert` over a present leaf mapping.  The
walk finds the existing child table, the target frame's refcount is bumped
first, the old mapping (to frame `pa2page (PTE_ADDR e)`) is removed — clearing
the leaf, invalidating the TLB, decrementing that frame's (post-bump) count
and freeing it exactly when it hits 0 — and the new leaf is installed. -/
theorem page_insert_present_spec (s : KState) (pd pp va perm d e : Nat)
    (hd : s.mem pd (PDX va) = d) (hdP : d &&& PTE_P ≠ 0) (hdPS : d &&& PTE_PS = 0)
    (he : s.mem (PPN (PTE_ADDR d)) (PTX va) = e) (heP : e &&& PTE_P ≠ 0)
    (hfM : Function.update s.refs pp ((s.refs pp + 1) % PP_REF_MOD)
             (pa2page (PTE_ADDR e)) < PP_REF_MOD) :
    ∃ s', page_insert s pd pp va perm = .ok (0, s') ∧
      s'.refs = Function.update
          (Function.update s.refs pp ((s.refs pp + 1) % PP_REF_MOD))
          (pa2page (PTE_ADDR e))
          ((Function.update s.refs pp ((s.refs pp + 1) % PP_REF_MOD)
              (pa2page (PTE_ADDR e)) + (PP_REF_MOD - 1)) % PP_REF_MOD) ∧
      s'.freeList = (if Function.update s.refs pp ((s.refs pp + 1) % PP_REF_MOD)
                        (pa2page (PTE_ADDR e)) = 1
                     then pa2page (PTE_ADDR e) :: s.freeList else s.freeList) ∧
      s'.tlbInvals = va :: s.tlbInvals ∧
      s'.mem (PPN (PTE_ADDR d)) (PTX va) = page2pa pp ||| PTE_P ||| perm ∧
      (∀ p j, ¬(p = PPN (PTE_ADDR d) ∧ j = PTX va) → s'.mem p j = s.mem p j) := by
  have hwalk1 : pgdir_walk s pd va 1 = .ok (some (PPN (PTE_ADDR d), PTX va), s) := by
    have h := pgdir_walk_present_run s pd va 1 (by rw [hd]; exact hdP) (by rw [hd]; exact hdPS)
    rw [hd] at h
    exact h
  set u : Nat → Nat := Function.update s.refs pp ((s.refs pp + 1) % PP_REF_MOD) with hu
  set sB : KState := { s with refs := u } with hsB
  have hsBmem : sB.mem = s.mem := rfl
  have hwalk2 : pgdir_walk sB pd va 0 = .ok (some (PPN (PTE_ADDR d), PTX va), sB) := by
    have h := pgdir_walk_present_run sB pd va 0
      (by rw [hsBmem, hd]; exact hdP) (by rw [hsBmem, hd]; exact hdPS)
    rw [hsBmem, hd] at h
    exact h
  have hrem := page_remove_run sB pd va (PPN (PTE_ADDR d)) (PTX va) hwalk2
    (by rw [hsBmem, he]; exact heP)
    (by rw [hsBmem, he]; exact hfM)
  rw [hsBmem, he] at hrem
  simp only [page_insert, hwalk1]
  rw [show writeRef s pp ((s.refs pp + 1) % PP_REF_MOD) = sB from rfl]
  rw [show sB.mem (PPN (PTE_ADDR d)) (PTX va) = e from by rw [hsBmem, he]]
  rw [if_pos heP]
  rw [hrem]
  refine ⟨_, rfl, ?_, ?_, rfl, ?_, ?_⟩
  · rfl
  · rfl
  · simp [writeMem]
  · intro p j hpj
    simp [writeMem, hpj]

/-! ## C3 -/

/-- C3: inserting frame `pp` at a `va` where `pp` itself is already mapped
succeeds: because the refcount is incremented *before* the preexisting
mapping is removed, the intermediate decref sees a count of at least 2, so
`pp` is never freed (the free list is unchanged), its refcount is net
unchanged, and the leaf entry ends holding `page2pa pp | PTE_P | perm`. -/
theorem page_insert_same_frame_safe (s : KState) (pd pp va perm d e : Nat)
    (hd : s.mem pd (PDX va) = d) (hdP : d &&& PTE_P ≠ 0) (hdPS : d &&& PTE_PS = 0)
    (he : s.mem (PPN (PTE_ADDR d)) (PTX va) = e) (heP : e &&& PTE_P ≠ 0)
    (hepp : pa2page (PTE_ADDR e) = pp)
    (hr1 : 1 ≤ s.refs pp) (hrM : s.refs pp < PP_REF_MOD) :
    ∃ s', page_insert s pd pp va perm = .ok (0, s') ∧
      s'.refs pp = s.refs pp ∧
      s'.freeList = s.freeList ∧
      s'.mem (PPN (PTE_ADDR d)) (PTX va) = page2pa pp ||| PTE_P ||| perm := by
  have hfM : Function.update s.refs pp ((s.refs pp + 1) % PP_REF_MOD)
      (pa2page (PTE_ADDR e)) < PP_REF_MOD := by
    rw [hepp, Function.update_same]
    simp only [PP_REF_MOD]
    omega
  obtain ⟨s', hins, hrefs, hfl, htlb, hmem, hmemo⟩ :=
    page_insert_present_spec s pd pp va perm d e hd hdP hdPS he heP hfM
  have hb1 : (s.refs pp + 1) % PP_REF_MOD ≠ 1 := by
    simp only [PP_REF_MOD] at hrM ⊢
    omega
  refine ⟨s', hins, ?_, ?_, hmem⟩
  · rw [hrefs, hepp, Function.update_same, Function.update_same]
    simp only [PP_REF_MOD] at hrM ⊢
    omega
  · rw [hfl, hepp, Function.update_same, if_neg hb1]

theorem page_insert_same_frame_safe_witness :
    (mapSt.mem 0 (PDX 0) = 0x2007 ∧ (0x2007 : Nat) &&& PTE_P ≠ 0 ∧
      (0x2007 : Nat) &&& PTE_PS = 0 ∧
      mapSt.mem (PPN (PTE_ADDR 0x2007)) (PTX 0) = 0x5003 ∧
      (0x5003 : Nat) &&& PTE_P ≠ 0 ∧ pa2page (PTE_ADDR 0x5003) = 5 ∧
      1 ≤ mapSt.refs 5 ∧ mapSt.refs 5 < PP_REF_MOD) ∧
    (∃ s', page_insert mapSt 0 5 0 7 = .ok (0, s') ∧
      s'.refs 5 = mapSt.refs 5 ∧
      s'.freeList = mapSt.freeList ∧
      s'.mem (PPN (PTE_ADDR 0x2007)) (PTX 0) = page2pa 5 ||| PTE_P ||| 7) :=
  ⟨⟨by decide, by decide, by decide, by decide, by decide, by decide, by decide, by decide⟩,
   page_insert_same_frame_safe mapSt 0 5 0 7 0x2007 0x5003
     (by decide) (by decide) (by decide) (by decide) (by decide) (by decide)
     (by decide) (by decide)⟩

/-! ## C5 -/

/-- C5: a successful insert of frame `pp` at a `va` currently mapping a
*different* frame `A = pa2page (PTE_ADDR e)` leaves `A`'s refcount
decremented by exactly 1 — `A` pushed onto the free list exactly when that
count reaches 0, i.e. when it was 1 — leaves `pp`'s refcount incremented by
exactly 1, and installs `page2pa pp | PTE_P | perm` in the leaf. -/
theorem page_insert_replaces_old_frame (s : KState) (pd pp va perm d e : Nat)
    (hd : s.mem pd (PDX va) = d) (hdP : d &&& PTE_P ≠ 0) (hdPS : d &&& PTE_PS = 0)
    (he : s.mem (PPN (PTE_ADDR d)) (PTX va) = e) (heP : e &&& PTE_P ≠ 0)
    (hAB : pa2page (PTE_ADDR e) ≠ pp)
    (hA1 : 1 ≤ s.refs (pa2page (PTE_ADDR e)))
    (hAM : s.refs (pa2page (PTE_ADDR e)) < PP_REF_MOD)
    (hBM : s.refs pp + 1 < PP_REF_MOD) :
    ∃ s', page_insert s pd pp va perm = .ok (0, s') ∧
      s'.refs pp = s.refs pp + 1 ∧
      s'.refs (pa2page (PTE_ADDR e)) = s.refs (pa2page (PTE_ADDR e)) - 1 ∧
      s'.freeList = (if s.refs (pa2page (PTE_ADDR e)) = 1
                     then pa2page (PTE_ADDR e) :: s.freeList else s.freeList) ∧
      s'.mem (PPN (PTE_ADDR d)) (PTX va) = page2pa pp ||| PTE_P ||| perm := by
  have hfM : Function.update s.refs pp ((s.refs pp + 1) % PP_REF_MOD)
      (pa2page (PTE_ADDR e)) < PP_REF_MOD := by
    rw [Function.update_noteq hAB]
    exact hAM
  obtain ⟨s', hins, hrefs, hfl, htlb, hmem, hmemo⟩ :=
    page_insert_present_spec s pd pp va perm d e hd hdP hdPS he heP hfM
  refine ⟨s', hins, ?_, ?_, ?_, hmem⟩
  · rw [hrefs, Function.update_noteq hAB.symm, Function.update_same]
    exact Nat.mod_eq_of_lt hBM
  · rw [hrefs, Function.update_same, Function.update_noteq hAB]
    simp only [PP_REF_MOD] at hAM ⊢
    omega
  · rw [hfl, Function.update_noteq hAB]

theorem page_insert_replaces_old_frame_witness :
    (mapSt.mem 0 (PDX 0) = 0x2007 ∧ (0x2007 : Nat) &&& PTE_P ≠ 0 ∧
      (0x2007 : Nat) &&& PTE_PS = 0 ∧
      mapSt.mem (PPN (PTE_ADDR 0x2007)) (PTX 0) = 0x5003 ∧
      (0x5003 : Nat) &&& PTE_P ≠ 0 ∧ pa2page (PTE_ADDR 0x5003) ≠ 3 ∧
      1 ≤ mapSt.refs (pa2page (PTE_ADDR 0x5003)) ∧
      mapSt.refs (pa2page (PTE_ADDR 0x5003)) < PP_REF_MOD ∧
      mapSt.refs 3 + 1 < PP_REF_MOD) ∧
    (∃ s', page_insert mapSt 0 3 0 2 = .ok (0, s') ∧
      s'.refs 3 = mapSt.refs 3 + 1 ∧
      s'.refs (pa2page (PTE_ADDR 0x5003)) = mapSt.refs (pa2page (PTE_ADDR 0x5003)) - 1 ∧
      s'.freeList = (if mapSt.refs (pa2page (PTE_ADDR 0x5003)) = 1
                     then pa2page (PTE_ADDR 0x5003) :: mapSt.freeList
                     else mapSt.freeList) ∧
      s'.mem (PPN (PTE_ADDR 0x2007)) (PTX 0) = page2pa 3 ||| PTE_P ||| 2) :=
  ⟨⟨by decide, by decide, by decide, by decide, by decide, by decide, by decide,
    by decide, by decide⟩,
   page_insert_replaces_old_frame mapSt 0 3 0 2 0x2007 0x5003
     (by decide) (by decide) (by decide) (by decide) (by decide) (by decide)
     (by decide) (by decide) (by decide)⟩

/-! ## C6 -/

/-- C6: when the directory entry for `va` is absent and create mode is 1,
`pgdir_walk` obtains the new table frame from `page_alloc` (the free-list
head `h`), zero-fills it, sets its refcount to exactly 1, and installs
`page2pa h | PTE_P | PTE_W | PTE_U` in the directory; when the free list is
empty it returns `none` with the state — in particular the directory —
completely unmodified, and `page_insert` in turn returns `-E_NO_MEM` with no
side effects on any refcount or table entry. -/
theorem pgdir_walk_create_materializes_or_fails :
    (∀ (s : KState) (pd va h : Nat) (t : List Nat),
      s.mem pd (PDX va) &&& PTE_P = 0 → s.freeList = h :: t → pd ≠ h →
      ∃ ptr s', pgdir_walk s pd va 1 = .ok (some ptr, s') ∧
        s'.mem pd (PDX va) = page2pa h ||| PTE_P ||| PTE_W ||| PTE_U ∧
        s'.refs h = 1 ∧
        (∀ i, s'.mem h i = 0) ∧
        s'.freeList = t) ∧
    (∀ (s : KState) (pd va : Nat),
      s.mem pd (PDX va) &&& PTE_P = 0 → s.freeList = [] →
      pgdir_walk s pd va 1 = .ok (none, s)) ∧
    (∀ (s : KState) (pd pp va perm : Nat),
      s.mem pd (PDX va) &&& PTE_P = 0 → s.freeList = [] →
      page_insert s pd pp va perm = .ok (-E_NO_MEM, s)) := by
  have hwalk_empty : ∀ (s : KState) (pd va : Nat),
      s.mem pd (PDX va) &&& PTE_P = 0 → s.freeList = [] →
      pgdir_walk s pd va 1 = .ok (none, s) := by
    intro s pd va hP hfl
    have hP' : ¬ s.mem pd (PDX va) &&& PTE_P ≠ 0 := by simp [hP]
    simp only [pgdir_walk]
    rw [if_neg hP', if_neg (by norm_num), if_neg (by norm_num)]
    simp only [page_alloc, hfl]
  refine ⟨?_, hwalk_empty, ?_⟩
  · intro s pd va h t hP hfl hpdh
    have hP' : ¬ s.mem pd (PDX va) &&& PTE_P ≠ 0 := by simp [hP]
    have halloc : page_alloc s =
        (0, some h, { s with refs := Function.update s.refs h 0, freeList := t }) := by
      simp only [page_alloc, hfl]
    have hh : h ≠ pd := fun hc => hpdh hc.symm
    have hrun : pgdir_walk s pd va 1 = .ok
        (some (PPN (PTE_ADDR (page2pa h ||| PTE_P ||| PTE_W ||| PTE_U)), PTX va),
         writeMem { refs := Function.update (Function.update s.refs h 0) h 1,
                    freeList := t,
                    mem := fun p i => if p = h then 0 else s.mem p i,
                    tlbInvals := s.tlbInvals } pd (PDX va)
           (page2pa h ||| PTE_P ||| PTE_W ||| PTE_U)) := by
      simp only [pgdir_walk]
      rw [if_neg hP', if_neg (by norm_num), if_neg (by norm_num), halloc]
      rfl
    refine ⟨_, _, hrun, ?_, ?_, ?_, ?_⟩
    · simp [writeMem]
    · simp [writeMem]
    · intro i
      simp [writeMem, hh]
    · simp [writeMem]
  · intro s pd pp va perm hP hfl
    simp only [page_insert, hwalk_empty s pd va hP hfl]

theorem pgdir_walk_create_materializes_or_fails_witness :
    (mapSt.mem 0 (PDX 0x400000) &&& PTE_P = 0 ∧ mapSt.freeList = [7] ∧ (0 : Nat) ≠ 7 ∧
      emptySt.mem 0 (PDX 0x400000) &&& PTE_P = 0 ∧ emptySt.freeList = []) ∧
    (∃ ptr s', pgdir_walk mapSt 0 0x400000 1 = .ok (some ptr, s') ∧
      s'.mem 0 (PDX 0x400000) = page2pa 7 ||| PTE_P ||| PTE_W ||| PTE_U ∧
      s'.refs 7 = 1 ∧ (∀ i, s'.mem 7 i = 0) ∧ s'.freeList = []) ∧
    pgdir_walk emptySt 0 0x400000 1 = .ok (none, emptySt) ∧
    page_insert emptySt 0 9 0x400000 6 = .ok (-E_NO_MEM, emptySt) :=
  ⟨⟨by decide, by decide, by decide, by decide, by decide⟩,
   pgdir_walk_create_materializes_or_fails.1 mapSt 0 0x400000 7 []
     (by decide) (by decide) (by decide),
   pgdir_walk_create_materializes_or_fails.2.1 emptySt 0 0x400000 (by decide) (by decide),
   pgdir_walk_create_materializes_or_fails.2.2 emptySt 0 9 0x400000 6
     (by decide) (by decide)⟩
